import Mathlib

set_option maxRecDepth 100000

/- Verification development for the codle-be grading backend (src/index.js).
The backend grades submitted Python code: it generates a test-harness script
around the user code, sends it to the Piston sandbox, and interprets the
transcript into a grading result.  This file gives a shallow embedding of
the JSON data model, the harness generator and the semantics of its
generated Python script, the response interpreter processPistonResponse,
the issue-inference heuristic analyzeIssuesFixed, and the problem endpoint
with its daily-problem cache, together with theorems settling the
behavioural claims about them. -/

/-- JSON values as handled by JSON.parse and JSON.stringify in the backend.
Numbers are modelled as integers, which covers every numeric value occurring
in the problem files and harness reports of this repository. -/
inductive Json where
  | null : Json
  | bool : Bool → Json
  | num : Int → Json
  | str : String → Json
  | arr : List Json → Json
  | obj : List (String × Json) → Json

/-- Lookup of a key in the field list of a JSON object (first occurrence;
objects built by the embedding have distinct keys, matching JS objects). -/
def jget0 : List (String × Json) → String → Option Json
  | [], _ => Option.none
  | (k0, v0) :: rest, k => if k0 == k then some v0 else jget0 rest k

/-- JS property read on a JSON value, with `Option.none` playing the role of
undefined.  This is the non-throwing variant used on values that are known
not to be null or undefined. -/
def jget (j : Json) (k : String) : Option Json :=
  match j with
  | .obj kvs => jget0 kvs k
  | _ => Option.none

/-- JS property assignment on an object field list: overwrite the value at
the first occurrence of the key, else append the new pair at the end. -/
def objSet : List (String × Json) → String → Json → List (String × Json)
  | [], k, v => [(k, v)]
  | (k0, v0) :: rest, k, v =>
    if k0 == k then (k0, v) :: rest else (k0, v0) :: objSet rest k v

/-- JS property assignment on a JSON value.  In the interpreter it is only
ever applied to parsed objects; on other values it is the identity. -/
def jsSet (j : Json) (k : String) (v : Json) : Json :=
  match j with
  | .obj kvs => .obj (objSet kvs k v)
  | _ => j

/-- Collapse the raw key-value list of a parsed JSON object the way JS
object construction does: a duplicate key keeps the position of its first
occurrence and the value of its last occurrence. -/
def dedupeObj (raw : List (String × Json)) : List (String × Json) :=
  raw.foldl (fun acc p => objSet acc p.1 p.2) []

/-- Strict equality test of a possibly-undefined JSON value against a
string literal, as in `testResults.status === "completed"`. -/
def isStrVal (v : Option Json) (s : String) : Bool :=
  match v with
  | some (.str t) => t == s
  | _ => false

/-- Strict equality test of a possibly-undefined JSON value against a
number literal, as in `testResults.summary.failed === 0`. -/
def isNumVal (v : Option Json) (n : Int) : Bool :=
  match v with
  | some (.num m) => m == n
  | _ => false

/-- JS truthiness of a possibly-undefined JSON value. -/
def truthy : Option Json → Bool
  | Option.none => false
  | some .null => false
  | some (.bool b) => b
  | some (.num n) => !(n == 0)
  | some (.str s) => !(s == "")
  | some (.arr _) => true
  | some (.obj _) => true

/-- The opening brace character. -/
def lbrace : Char := Char.ofNat 123

/-- The closing brace character. -/
def rbrace : Char := Char.ofNat 125

/-- JSON whitespace. -/
def isWs (c : Char) : Bool :=
  c == ' ' || c == '\n' || c == '\t' || c == '\r'

/-- Drop leading JSON whitespace. -/
def skipWs : List Char → List Char
  | [] => []
  | c :: cs => if isWs c then skipWs cs else c :: cs

/-- Decode one string escape character. -/
def unescape (e : Char) : Option Char :=
  if e = '"' then some '"'
  else if e = '\\' then some '\\'
  else if e = '/' then some '/'
  else if e = 'n' then some '\n'
  else if e = 't' then some '\t'
  else if e = 'r' then some '\r'
  else if e = 'b' then some (Char.ofNat 8)
  else if e = 'f' then some (Char.ofNat 12)
  else Option.none

/-- Parse the body of a JSON string after its opening quote, returning the
decoded characters and the input following the closing quote. -/
def parseStrAux : List Char → Option (List Char × List Char)
  | [] => Option.none
  | c :: cs =>
    if c = '"' then some ([], cs)
    else if c = '\\' then
      match cs with
      | [] => Option.none
      | e :: cs2 =>
        match unescape e, parseStrAux cs2 with
        | some d, some (s, rest) => some (d :: s, rest)
        | _, _ => Option.none
    else
      match parseStrAux cs with
      | some (s, rest) => some (c :: s, rest)
      | Option.none => Option.none

/-- Numeric value of a decimal digit. -/
def digitVal (c : Char) : Option Nat :=
  if '0' ≤ c ∧ c ≤ '9' then some (c.toNat - '0'.toNat) else Option.none

/-- Consume a maximal run of decimal digits. -/
def parseDigitsAux : List Char → Nat → Nat × List Char
  | [], acc => (acc, [])
  | c :: cs, acc =>
    match digitVal c with
    | some d => parseDigitsAux cs (acc * 10 + d)
    | Option.none => (acc, c :: cs)

/-- Parse a JSON integer (optional minus sign and a digit run). -/
def parseNum : List Char → Option (Int × List Char)
  | [] => Option.none
  | c :: cs =>
    if c = '-' then
      match cs with
      | d :: _ =>
        match digitVal d with
        | some _ =>
          let p := parseDigitsAux cs 0
          some (-(Int.ofNat p.1), p.2)
        | Option.none => Option.none
      | [] => Option.none
    else
      match digitVal c with
      | some _ =>
        let p := parseDigitsAux (c :: cs) 0
        some (Int.ofNat p.1, p.2)
      | Option.none => Option.none

mutual

/-- Fuel-indexed JSON value parser; the fuel chosen by `jsonParse` is large
enough for any input it is applied to. -/
def parseVal : Nat → List Char → Option (Json × List Char)
  | 0, _ => Option.none
  | Nat.succ fuel, cs0 =>
    match skipWs cs0 with
    | [] => Option.none
    | c :: rest =>
      if c = 't' then
        match rest with
        | 'r' :: 'u' :: 'e' :: rest2 => some (.bool true, rest2)
        | _ => Option.none
      else if c = 'f' then
        match rest with
        | 'a' :: 'l' :: 's' :: 'e' :: rest2 => some (.bool false, rest2)
        | _ => Option.none
      else if c = 'n' then
        match rest with
        | 'u' :: 'l' :: 'l' :: rest2 => some (.null, rest2)
        | _ => Option.none
      else if c = '"' then
        match parseStrAux rest with
        | some (s, rest2) => some (.str (String.mk s), rest2)
        | Option.none => Option.none
      else if c = '[' then
        match skipWs rest with
        | [] => Option.none
        | c2 :: rest2 =>
          if c2 = ']' then some (.arr [], rest2)
          else
            match parseArrElems fuel (c2 :: rest2) with
            | some (l, rest3) => some (.arr l, rest3)
            | Option.none => Option.none
      else if c = lbrace then
        match skipWs rest with
        | [] => Option.none
        | c2 :: rest2 =>
          if c2 = rbrace then some (.obj [], rest2)
          else
            match parseObjElems fuel (c2 :: rest2) with
            | some (kvs, rest3) => some (.obj (dedupeObj kvs), rest3)
            | Option.none => Option.none
      else
        match parseNum (c :: rest) with
        | some (n, rest2) => some (.num n, rest2)
        | Option.none => Option.none

/-- Parse the comma-separated elements of a non-empty JSON array, up to and
including the closing bracket. -/
def parseArrElems : Nat → List Char → Option (List Json × List Char)
  | 0, _ => Option.none
  | Nat.succ fuel, cs =>
    match parseVal fuel cs with
    | some (v, rest) =>
      (match skipWs rest with
       | [] => Option.none
       | c :: rest2 =>
         if c = ',' then
           match parseArrElems fuel rest2 with
           | some (l, rest3) => some (v :: l, rest3)
           | Option.none => Option.none
         else if c = ']' then some ([v], rest2)
         else Option.none)
    | Option.none => Option.none

/-- Parse the comma-separated pairs of a non-empty JSON object, up to and
including the closing brace, returning the raw pair list. -/
def parseObjElems : Nat → List Char → Option (List (String × Json) × List Char)
  | 0, _ => Option.none
  | Nat.succ fuel, cs =>
    match skipWs cs with
    | [] => Option.none
    | c :: rest =>
      if c = '"' then
        match parseStrAux rest with
        | some (k, rest2) =>
          (match skipWs rest2 with
           | [] => Option.none
           | c2 :: rest3 =>
             if c2 = ':' then
               match parseVal fuel rest3 with
               | some (v, rest4) =>
                 (match skipWs rest4 with
                  | [] => Option.none
                  | c3 :: rest5 =>
                    if c3 = ',' then
                      match parseObjElems fuel rest5 with
                      | some (kvs, rest6) => some ((String.mk k, v) :: kvs, rest6)
                      | Option.none => Option.none
                    else if c3 = rbrace then some ([(String.mk k, v)], rest5)
                    else Option.none)
               | Option.none => Option.none
             else Option.none)
        | Option.none => Option.none
      else Option.none

end

/-- Model of JSON.parse as used on `pistonResponse.run.stdout`: parse one
JSON value and require the remaining input to be whitespace. -/
def jsonParse (s : String) : Option Json :=
  match parseVal (2 * s.length + 8) s.data with
  | some (v, rest) => if (skipWs rest).isEmpty then some v else Option.none
  | Option.none => Option.none

/-- Escape one character for a JSON string literal. -/
def escCharList (c : Char) : List Char :=
  if c = '"' then ['\\', '"']
  else if c = '\\' then ['\\', '\\']
  else if c = '\n' then ['\\', 'n']
  else if c = '\t' then ['\\', 't']
  else if c = '\r' then ['\\', 'r']
  else [c]

/-- Escape a string for inclusion in a JSON string literal. -/
def escapeString (s : String) : String :=
  String.mk (s.data.foldr (fun c acc => escCharList c ++ acc) [])

/-- A JSON string literal. -/
def quoteString (s : String) : String :=
  "\"" ++ escapeString s ++ "\""

mutual

/-- Render a JSON value with the given item and key separators.  With
separators "," and ":" this is JSON.stringify; with ", " and ": " it is the
default format of json.dumps in the Python harness. -/
def renderJson (isep ksep : String) : Json → String
  | .null => "null"
  | .bool b => if b then "true" else "false"
  | .num n => toString n
  | .str s => quoteString s
  | .arr l => "[" ++ renderArr isep ksep l ++ "]"
  | .obj kvs => "\x7b" ++ renderObj isep ksep kvs ++ "\x7d"

/-- Render array elements separated by the item separator. -/
def renderArr (isep ksep : String) : List Json → String
  | [] => ""
  | [v] => renderJson isep ksep v
  | v :: rest => renderJson isep ksep v ++ isep ++ renderArr isep ksep rest

/-- Render object pairs separated by the item separator. -/
def renderObj (isep ksep : String) : List (String × Json) → String
  | [] => ""
  | [(k, v)] => quoteString k ++ ksep ++ renderJson isep ksep v
  | (k, v) :: rest =>
    quoteString k ++ ksep ++ renderJson isep ksep v ++ isep ++ renderObj isep ksep rest

end

/-- JSON.stringify with its default compact separators. -/
def jsonStringify (j : Json) : String := renderJson "," ":" j

/-- json.dumps with its default separators, as used by the print calls of
the generated Python harness. -/
def pyDumps (j : Json) : String := renderJson ", " ": " j

example : jsonParse "" = Option.none := by rfl

example : jsonParse "5" = some (.num 5) := by rfl

example : jsonParse " \x7b\"a\": [1, -2], \"b\": \"x\"\x7d " =
    some (.obj [("a", .arr [.num 1, .num (-2)]), ("b", .str "x")]) := by rfl

example :
    pyDumps (.obj [("a", .arr [.num 1, .num (-2)]), ("b", .str "x")]) =
      "\x7b\"a\": [1, -2], \"b\": \"x\"\x7d" := by rfl

example :
    jsonParse (pyDumps (.obj [("status", .str "completed"), ("results", .arr [])])) =
      some (.obj [("status", .str "completed"), ("results", .arr [])]) := by rfl

/-- A single-quote character, used when assembling generated source text. -/
def squote : String := String.singleton (Char.ofNat 39)

/-- A known issue declared by a problem file: problems list issues as
objects with an id and a description. -/
structure Issue where
  id : Int
  description : String

/-- The fields of a loaded problem used by the grading pipeline: the Python
starting-code template (source of the entry-point name), the test cases as
parsed JSON, and the optional issues list (`Option.none` models a problem
file without an issues array). -/
structure Problem where
  startingCodePython : String
  testCases : List Json
  issues : Option (List Issue)

/-- Python values as they occur in the generated harness: the test cases
are JSON data converted to Python, and user functions consume and produce
such values. -/
inductive PyVal where
  | none : PyVal
  | bool : Bool → PyVal
  | int : Int → PyVal
  | str : String → PyVal
  | list : List PyVal → PyVal
  | dict : List (String × PyVal) → PyVal

/-- Numeric view of a Python value: booleans are the integers 0 and 1. -/
def pyNumVal : PyVal → Option Int
  | .bool b => some (if b then 1 else 0)
  | .int n => some n
  | _ => Option.none

mutual

/-- Python equality as used by `output == test["expected"]` in the harness:
numeric comparison identifies booleans with 0 and 1, containers compare
elementwise.  Dict comparison is modelled on the ordered pair list, which is
adequate for the value shapes exercised in this development. -/
def pyEq : PyVal → PyVal → Bool
  | a, b =>
    match pyNumVal a, pyNumVal b with
    | some x, some y => x == y
    | _, _ =>
      match a, b with
      | .none, .none => true
      | .str s, .str t => s == t
      | .list l, .list m => pyEqList l m
      | .dict d, .dict e => pyEqDict d e
      | _, _ => false

/-- Elementwise Python equality of lists. -/
def pyEqList : List PyVal → List PyVal → Bool
  | [], [] => true
  | a :: as, b :: bs => pyEq a b && pyEqList as bs
  | _, _ => false

/-- Pairwise Python equality of dict entries. -/
def pyEqDict : List (String × PyVal) → List (String × PyVal) → Bool
  | [], [] => true
  | (k, a) :: as, (k2, b) :: bs => k == k2 && pyEq a b && pyEqDict as bs
  | _, _ => false

end

mutual

/-- Conversion of parsed JSON test data into the Python values seen by the
harness (the test cases are spliced into the script as a JSON literal). -/
def jsonToPy : Json → PyVal
  | .null => .none
  | .bool b => .bool b
  | .num n => .int n
  | .str s => .str s
  | .arr l => .list (jsonToPyList l)
  | .obj kvs => .dict (jsonToPyObj kvs)

/-- Conversion of a JSON array into a Python list. -/
def jsonToPyList : List Json → List PyVal
  | [] => []
  | j :: rest => jsonToPy j :: jsonToPyList rest

/-- Conversion of a JSON object into a Python dict. -/
def jsonToPyObj : List (String × Json) → List (String × PyVal)
  | [] => []
  | (k, j) :: rest => (k, jsonToPy j) :: jsonToPyObj rest

end

mutual

/-- Conversion of Python values back to JSON, as performed by json.dumps on
the result entries of the harness report. -/
def pyToJson : PyVal → Json
  | .none => .null
  | .bool b => .bool b
  | .int n => .num n
  | .str s => .str s
  | .list l => .arr (pyToJsonList l)
  | .dict kvs => .obj (pyToJsonObj kvs)

/-- Conversion of a Python list into a JSON array. -/
def pyToJsonList : List PyVal → List Json
  | [] => []
  | v :: rest => pyToJson v :: pyToJsonList rest

/-- Conversion of a Python dict into a JSON object. -/
def pyToJsonObj : List (String × PyVal) → List (String × Json)
  | [] => []
  | (k, v) :: rest => (k, pyToJson v) :: pyToJsonObj rest

end

/-- Semantics of a user-defined Python function: a map from the positional
argument list to a result, or to the message of a raised exception. -/
def PyFun : Type := List PyVal → Except String PyVal

/-- The argument-binding step of the generated harness (src/index.js lines
164 to 171): a dict input passes its values positionally in declaration
order, any other input is passed as the single positional argument. -/
def callWithInput (f : PyFun) (input : PyVal) : Except String PyVal :=
  match input with
  | .dict kvs => f (kvs.map Prod.snd)
  | v => f [v]

/-- One test case as consumed by the harness loop: a dict holding input,
expected and an optional description (the shape produced for every entry of
problem.testCases by the JSON splice). -/
structure PyTest where
  input : PyVal
  expected : PyVal
  description : Option PyVal

/-- View a JSON test case from problem.testCases as a harness test. -/
def pyTestOfJson (j : Json) : Option PyTest :=
  match j with
  | .obj kvs =>
    match jget0 kvs "input", jget0 kvs "expected" with
    | some i, some e =>
      some ⟨jsonToPy i, jsonToPy e, (jget0 kvs "description").map jsonToPy⟩
    | _, _ => Option.none
  | _ => Option.none

/-- The description recorded for test number i, with the default of
`test.get("description", f"Test case ...")`. -/
def descOf (i : Nat) (t : PyTest) : Json :=
  match t.description with
  | some d => pyToJson d
  | Option.none => .str ("Test case " ++ toString (i + 1))

/-- One iteration of the harness test loop (src/index.js lines 159 to 193):
call the entry point on the bound arguments and record either a comparison
outcome or a caught exception as a failing outcome.  The traceback text is
modelled as an opaque string derived from the exception message. -/
def runOne (f : PyFun) (i : Nat) (t : PyTest) : Json :=
  match callWithInput f t.input with
  | .ok output =>
    .obj [("testCase", .num (Int.ofNat (i + 1))), ("description", descOf i t),
          ("input", pyToJson t.input), ("expected", pyToJson t.expected),
          ("actual", pyToJson output), ("passed", .bool (pyEq output t.expected))]
  | .error e =>
    .obj [("testCase", .num (Int.ofNat (i + 1))), ("description", descOf i t),
          ("input", pyToJson t.input), ("expected", pyToJson t.expected),
          ("error", .str e), ("traceback", .str ("Traceback: " ++ e)),
          ("passed", .bool false)]

/-- The results list accumulated by the harness loop. -/
def runResults (f : PyFun) (tests : List PyTest) : List Json :=
  tests.enum.map fun p => runOne f p.1 p.2

/-- The boolean recorded under "passed" in a result entry. -/
def entryPassed (r : Json) : Bool :=
  match jget r "passed" with
  | some (.bool b) => b
  | _ => false

/-- The report object printed by run_tests on its success path
(src/index.js lines 196 to 204). -/
def runTestsReport (f : PyFun) (tests : List PyTest) : Json :=
  let rs := runResults f tests
  .obj [("status", .str "completed"), ("results", .arr rs),
        ("summary", .obj
          [("total", .num (Int.ofNat rs.length)),
           ("passed", .num (Int.ofNat (rs.filter (fun r => entryPassed r)).length)),
           ("failed", .num (Int.ofNat (rs.filter (fun r => !entryPassed r)).length))])]

/-- Exit code and standard output of one sandbox execution of the generated
wrapper. -/
structure PyExec where
  exitCode : Int
  stdout : String

/-- Execution of the generated wrapper script inside the sandbox, modelling
the Python code of the template: loadError is the message of an exception
raised while exec-ing the user code (if any), defs the set of names the user
code defined, f the semantics of the entry-point function. -/
def runWrapper (loadError : Option String) (defs : List String) (f : PyFun)
    (functionName : String) (tests : List PyTest) : PyExec :=
  match loadError with
  | some e =>
    ⟨1, pyDumps (.obj [("status", .str "error"),
        ("message", .str ("Error in user code: " ++ e)),
        ("traceback", .str ("Traceback: " ++ e))]) ++ "\n"⟩
  | Option.none =>
    if defs.contains functionName then
      ⟨0, pyDumps (runTestsReport f tests) ++ "\n"⟩
    else
      ⟨1, pyDumps (.obj [("status", .str "error"),
          ("message", .str ("Function " ++ squote ++ functionName ++ squote ++
            " not found in your code."))]) ++ "\n"⟩

/-- Character class [a-zA-Z0-9_] of the extraction pattern. -/
def isIdentChar (c : Char) : Bool :=
  ('a' ≤ c && c ≤ 'z') || ('A' ≤ c && c ≤ 'Z') || ('0' ≤ c && c ≤ '9') || c == '_'

/-- Whitespace class of the extraction pattern. -/
def isSpaceChar (c : Char) : Bool :=
  c == ' ' || c == '\n' || c == '\t' || c == '\r' || c == Char.ofNat 11 || c == Char.ofNat 12

/-- Try to match def, one or more spaces, an identifier, optional spaces
and an opening parenthesis at the head of the input, returning the
identifier. -/
def matchDefAt (cs : List Char) : Option String :=
  match cs with
  | 'd' :: 'e' :: 'f' :: rest =>
    let rest1 := rest.dropWhile isSpaceChar
    if rest1.length == rest.length then Option.none
    else
      let ident := rest1.takeWhile isIdentChar
      if ident.isEmpty then Option.none
      else
        match (rest1.dropWhile isIdentChar).dropWhile isSpaceChar with
        | '(' :: _ => some (String.mk ident)
        | _ => Option.none
  | _ => Option.none

/-- First match of the extraction pattern anywhere in the input. -/
def findDefName : List Char → Option String
  | [] => Option.none
  | c :: cs =>
    match matchDefAt (c :: cs) with
    | some n => some n
    | Option.none => findDefName cs

/-- extractFunctionName (src/index.js lines 212 to 215): first identifier
declared by a def in the starting code, else the fallback name. -/
def extractFunctionName (code : String) : String :=
  (findDefName code.data).getD "user_function"

/-- createPythonTestWrapper (src/index.js lines 120 to 209): the generated
Python script, with the user code, the JSON-stringified test cases and the
extracted function name spliced into the template text. -/
def createPythonTestWrapper (userCode : String) (problem : Problem) : String :=
  let functionName := extractFunctionName problem.startingCodePython
  "\nimport json\nimport traceback\n\n# Global namespace for user code\nglobal_namespace = \x7b\x7d\n\n# Execute user code\ntry:\n    exec(\"\"\"\n"
  ++ userCode
  ++ "\n\"\"\", global_namespace)\nexcept Exception as e:\n    print(json.dumps(\x7b\n        \"status\": \"error\",\n        \"message\": f\"Error in user code: \x7bstr(e)\x7d\",\n        \"traceback\": traceback.format_exc()\n    \x7d))\n    exit(1)\n\n# Run test cases\ndef run_tests():\n    # Convert test cases to Python format\n    test_cases = "
  ++ jsonStringify (.arr problem.testCases)
  ++ "\n    results = []\n    \n    # Check if required function exists\n    if \""
  ++ functionName
  ++ "\" not in global_namespace:\n        print(json.dumps(\x7b\n            \"status\": \"error\",\n            \"message\": f\"Function "
  ++ squote ++ functionName ++ squote
  ++ " not found in your code.\"\n        \x7d))\n        exit(1)\n    \n    # Run each test case\n    for i, test in enumerate(test_cases):\n        try:\n            # Extract inputs\n            input_params = test[\"input\"]\n            \n            # Call the function with the right parameters\n            if isinstance(input_params, dict):\n                # If input is a dictionary, extract parameters\n                function_args = list(input_params.values())\n                output = global_namespace[\""
  ++ functionName
  ++ "\"](*function_args)\n            else:\n                # If input is a single value\n                output = global_namespace[\""
  ++ functionName
  ++ "\"](input_params)\n            \n            # Check if result matches expected\n            passed = output == test[\"expected\"]\n            \n            results.append(\x7b\n                \"testCase\": i + 1,\n                \"description\": test.get(\"description\", f\"Test case \x7bi+1\x7d\"),\n                \"input\": input_params,\n                \"expected\": test[\"expected\"],\n                \"actual\": output,\n                \"passed\": passed\n            \x7d)\n        except Exception as e:\n            results.append(\x7b\n                \"testCase\": i + 1,\n                \"description\": test.get(\"description\", f\"Test case \x7bi+1\x7d\"),\n                \"input\": test[\"input\"],\n                \"expected\": test[\"expected\"],\n                \"error\": str(e),\n                \"traceback\": traceback.format_exc(),\n                \"passed\": False\n            \x7d)\n    \n    # Print results as JSON\n    print(json.dumps(\x7b\n        \"status\": \"completed\",\n        \"results\": results,\n        \"summary\": \x7b\n            \"total\": len(results),\n            \"passed\": sum(1 for r in results if r[\"passed\"]),\n            \"failed\": sum(1 for r in results if not r[\"passed\"])\n        \x7d\n    \x7d))\n\n# Run tests\nrun_tests()\n"

/-- Whether the needle is a leading segment of the haystack. -/
def listPre : List Char → List Char → Bool
  | [], _ => true
  | _ :: _, [] => false
  | a :: as, b :: bs => a == b && listPre as bs

/-- Split a character list at the first occurrence of the needle, returning
the part before it and the part after it. -/
def splitFirst (needle : List Char) : List Char → Option (List Char × List Char)
  | [] => if needle.isEmpty then some ([], []) else Option.none
  | c :: cs =>
    if listPre needle (c :: cs) then some ([], (c :: cs).drop needle.length)
    else
      match splitFirst needle cs with
      | some (b, a) => some (c :: b, a)
      | Option.none => Option.none

/-- The text of the first triple-quoted exec argument in a generated
wrapper: everything between the first occurrence of the opening delimiter
and the next occurrence of the closing triple quote, following the maximal
munch of the Python lexer on these delimiters. -/
def execEmbeddedContent (src : String) : Option String :=
  match splitFirst ("exec(\"\"\"").data src.data with
  | some (_, rest) =>
    match splitFirst ("\"\"\"").data rest with
    | some (content, _) => some (String.mk content)
    | Option.none => Option.none
  | Option.none => Option.none

example : extractFunctionName "def add(a, b):\n    pass" = "add" := by rfl

example : extractFunctionName "x = 1" = "user_function" := by rfl

/-- JS property access with exception semantics: reading a property of null
(or, via `jsDotU`, of undefined) throws a TypeError, every other base
yields the property value or undefined. -/
def jsDot (v : Json) (k : String) : Except Unit (Option Json) :=
  match v with
  | .null => .error ()
  | .obj kvs => .ok (jget0 kvs k)
  | _ => .ok Option.none

/-- JS property access on a possibly-undefined base. -/
def jsDotU (v : Option Json) (k : String) : Except Unit (Option Json) :=
  match v with
  | Option.none => .error ()
  | some j => jsDot j k

/-- Whether the needle occurs as a contiguous segment of the haystack. -/
def listSub (needle : List Char) : List Char → Bool
  | [] => needle.isEmpty
  | c :: cs => listPre needle (c :: cs) || listSub needle cs

/-- Substring test on strings. -/
def strIncl (hay needle : String) : Bool := listSub needle.data hay.data

/-- The call result.description.includes(needle): a substring test on
strings, a membership test on arrays, and a thrown TypeError on any other
value (undefined, null, numbers, booleans and objects have no includes
method). -/
def jsIncludes (d : Option Json) (needle : String) : Except Unit Bool :=
  match d with
  | some (.str s) => .ok (strIncl s needle)
  | some (.arr l) =>
    .ok (l.any fun x => match x with | .str t => t == needle | _ => false)
  | _ => .error ()

/-- Update of the issuesFixed map at an issue id: overwrite the first
occurrence of the key, else append the new pair. -/
def iset : List (Int × Bool) → Int → Bool → List (Int × Bool)
  | [], k, v => [(k, v)]
  | (k0, v0) :: rest, k, v =>
    if k0 == k then (k0, v) :: rest else (k0, v0) :: iset rest k v

/-- Lookup in the issuesFixed map. -/
def iget : List (Int × Bool) → Int → Option Bool
  | [], _ => Option.none
  | (k0, v0) :: rest, k => if k0 == k then some v0 else iget rest k

/-- results.every of the passed flags, with JS short-circuit and exception
semantics. -/
def everyPassed : List Json → Except Unit Bool
  | [] => .ok true
  | r :: rest =>
    match jsDot r "passed" with
    | .error e => .error e
    | .ok p => if truthy p then everyPassed rest else .ok false

/-- One forEach step of the keyword table of analyzeIssuesFixed
(src/index.js lines 282 to 299): a passing outcome whose description
contains a keyword marks the associated declared issue as fixed. -/
def keywordStep (issues : List Issue) (m : List (Int × Bool)) (r : Json) :
    Except Unit (List (Int × Bool)) := do
  let p ← jsDot r "passed"
  if truthy p then
    let d ← jsDot r "description"
    let inc1 ← jsIncludes d "ascending order"
    let m1 := if inc1 && issues.any (fun i => i.id == 1) then iset m 1 true else m
    let inc2 ← jsIncludes d "Duplicate"
    let m2 := if inc2 && issues.any (fun i => i.id == 2) then iset m1 2 true else m1
    let inc3 ← jsIncludes d "Negative"
    let m3 := if inc3 && issues.any (fun i => i.id == 3) then iset m2 3 true else m2
    pure m3
  else
    pure m

/-- The forEach over all outcomes applying the keyword table. -/
def analyzeLoop (issues : List Issue) :
    List Json → List (Int × Bool) → Except Unit (List (Int × Bool))
  | [], m => .ok m
  | r :: rest, m => do
    let m2 ← keywordStep issues m r
    analyzeLoop issues rest m2

/-- The map marking every declared issue as not fixed, in declaration
order. -/
def initIssuesMap (issues : List Issue) : List (Int × Bool) :=
  issues.foldl (fun m i => iset m i.id false) []

/-- The fast-path update marking every declared issue as fixed. -/
def allFixedMap (issues : List Issue) (m0 : List (Int × Bool)) : List (Int × Bool) :=
  issues.foldl (fun m i => iset m i.id true) m0

/-- analyzeIssuesFixed (src/index.js lines 260 to 302) with JS exception
semantics over the untrusted results value: every declared issue starts
unfixed; if every outcome passed, every issue is marked fixed and the
keyword table is skipped; otherwise the keyword table is applied to the
passing outcomes. -/
def analyzeIssuesFixed (resultsV : Option Json) (issues : List Issue) :
    Except Unit (List (Int × Bool)) := do
  let m0 := initIssuesMap issues
  let rs ← match resultsV with
    | some (.arr l) => Except.ok l
    | _ => Except.error ()
  let ap ← everyPassed rs
  if ap then
    pure (allFixedMap issues m0)
  else
    analyzeLoop issues rs m0

/-- The issuesFixed map as the JSON object attached to the grading result
(JS object keys are strings). -/
def imapToJson (m : List (Int × Bool)) : Json :=
  .obj (m.map fun p => (toString p.1, .bool p.2))

/-- The run section of a Piston execute response: exit code, the two
captured streams, and the combined output stream.  Per the Piston wire
contract, output interleaves stdout and stderr. -/
structure PistonRun where
  code : Int
  stdout : String
  stderr : String
  output : String

/-- A Piston execute response as consumed by processPistonResponse. -/
structure PistonResponse where
  run : PistonRun

/-- The try block of processPistonResponse (src/index.js lines 228 to 247):
parse stdout as JSON, recompute the all-passed flag, and on a completed
report attach issuesFixed and allIssuesFixed; an exception raised by the
parse, by any property access or inside analyzeIssuesFixed propagates to
the catch. -/
def tryBranch (resp : PistonResponse) (problem : Problem) : Except Unit Json := do
  let testResults ← match jsonParse resp.run.stdout with
    | some j => Except.ok j
    | Option.none => Except.error ()
  let statusV ← jsDot testResults "status"
  let allPassed ←
    if isStrVal statusV "completed" then do
      let summaryV ← jsDot testResults "summary"
      let failedV ← jsDotU summaryV "failed"
      pure (isNumVal failedV 0)
    else
      pure false
  if isStrVal statusV "completed" then do
    let resultsV ← jsDot testResults "results"
    let issuesFixedJson ←
      match problem.issues with
      | some issues => do
        let m ← analyzeIssuesFixed resultsV issues
        pure (imapToJson m)
      | Option.none => pure (Json.obj [])
    pure (jsSet (jsSet testResults "issuesFixed" issuesFixedJson)
      "allIssuesFixed" (.bool allPassed))
  else
    pure testResults

/-- processPistonResponse (src/index.js lines 218 to 257): a non-zero exit
code yields the execution-error result with stderr-or-output details; an
exit code of zero runs the try block, any exception of which is caught and
rendered as the parse-failure result carrying the raw stdout. -/
def processPistonResponse (resp : PistonResponse) (problem : Problem) : Json :=
  if resp.run.code == 0 then
    match tryBranch resp problem with
    | .ok j => j
    | .error _ =>
      .obj [("status", .str "error"),
            ("message", .str "Failed to parse test results"),
            ("details", .str resp.run.stdout)]
  else
    .obj [("status", .str "error"), ("message", .str "Execution error"),
          ("details", .str (if resp.run.stderr == "" then resp.run.output
                            else resp.run.stderr))]

/-- The module-level cache state (src/index.js lines 15 and 16). -/
structure ServerState where
  dailyProblemCache : Option Json
  lastCacheUpdate : Option Int

/-- getDailyProblem (src/index.js lines 19 to 55).  The directory read,
file parsing and date sort are the excluded storage collaborator; the
loadResult argument is their outcome on this request: the most recent
problem, or Option.none when the directory holds no problems or reading
fails. -/
def getDailyProblem (loadResult : Option Json) (now : Int) (st : ServerState) :
    Option Json × ServerState :=
  let fresh : Bool :=
    match st.dailyProblemCache, st.lastCacheUpdate with
    | some _, some t => decide (now - t < 3600000)
    | _, _ => false
  if fresh then (st.dailyProblemCache, st)
  else
    match loadResult with
    | Option.none => (Option.none, st)
    | some p => (some p, ⟨some p, some now⟩)

/-- The rest destructuring in the problem endpoint (src/index.js line 66):
a fresh object holding every field of the problem except solution. -/
def removeSolution (p : Json) : Json :=
  match p with
  | .obj kvs => .obj (kvs.filter fun q => !(q.1 == "solution"))
  | _ => .obj []

/-- A response of the problem endpoint: the JSON body with its status
class. -/
inductive ApiResponse where
  | ok : Json → ApiResponse
  | notFound : Json → ApiResponse

/-- The GET problem handler (src/index.js lines 58 to 71). -/
def handleGetProblem (loadResult : Option Json) (now : Int) (st : ServerState) :
    ApiResponse × ServerState :=
  match getDailyProblem loadResult now st with
  | (Option.none, st2) =>
    (.notFound (.obj [("error", .str "No daily problem found")]), st2)
  | (some p, st2) => (.ok (removeSolution p), st2)

/-- Sequential handling of a list of GET problem requests, each given by
its storage outcome and request time; returns the final cache state. -/
def serveAll (reqs : List (Option Json × Int)) (st : ServerState) : ServerState :=
  reqs.foldl (fun s r => (handleGetProblem r.1 r.2 s).2) st

/-- Definition following the words of the spec, for comparison with the
code: the summary invariant of a grading result.  summary.total equals the
number of outcomes, passed plus failed equals total, and allIssuesFixed
holds exactly when the status is completed and no outcome failed. -/
def specSummaryInvariant (j : Json) : Bool :=
  match jget j "status", jget j "summary", jget j "results",
        jget j "allIssuesFixed" with
  | some (.str st), some (.obj s), some (.arr rs), some (.bool aif) =>
    (match jget0 s "total", jget0 s "passed", jget0 s "failed" with
     | some (.num t), some (.num p), some (.num f) =>
       (t == Int.ofNat rs.length) && (p + f == t) &&
         (aif == (st == "completed" && f == 0))
     | _, _, _ => false)
  | _, _, _, _ => false

/-- Definition following the words of the spec, for comparison with the
code: whether a JSON value is one structured report record per the report
contract, that is, a completed record carrying a results array and a
numeric summary, or an error record carrying a message. -/
def specIsReportRecord (j : Json) : Bool :=
  match jget j "status" with
  | some (.str st) =>
    if st == "completed" then
      (match jget j "results", jget j "summary" with
       | some (.arr _), some (.obj s) =>
         (match jget0 s "total", jget0 s "passed", jget0 s "failed" with
          | some (.num _), some (.num _), some (.num _) => true
          | _, _, _ => false)
       | _, _ => false)
    else if st == "error" then
      (match jget j "message" with
       | some (.str _) => true
       | _ => false)
    else false
  | _ => false

/-- Whether an exception-carrying computation succeeded. -/
def isOkE {α : Type} : Except Unit α → Bool
  | .ok _ => true
  | .error _ => false

/-- The problem of the end-to-end scenario: one test case in the
positional-list form with input [2, 3] and expected 5, starting code
declaring add(a, b), and no declared issues. -/
def scenarioProblem : Problem :=
  { startingCodePython := "def add(a, b):\n    pass"
    testCases := [.obj [("input", .arr [.num 2, .num 3]), ("expected", .num 5)]]
    issues := Option.none }

/-- The same scenario with the test input in mapping form. -/
def scenarioProblemMap : Problem :=
  { startingCodePython := "def add(a, b):\n    pass"
    testCases := [.obj [("input", .obj [("a", .num 2), ("b", .num 3)]),
                        ("expected", .num 5)]]
    issues := Option.none }

/-- Semantics of the submitted solution def add(a, b): return a + b under
Python call semantics: two integer arguments are added, any other argument
list raises a TypeError whose message is modelled after the CPython text. -/
def addFn : PyFun := fun args =>
  match args with
  | [.int a, .int b] => .ok (.int (a + b))
  | [_, _] => .error "unsupported operand type(s) for +"
  | _ => .error ("add() missing 1 required positional argument: " ++ squote ++ "b" ++ squote)

/-- The harness test list of the list-form scenario problem. -/
def scenarioTests : List PyTest := scenarioProblem.testCases.filterMap pyTestOfJson

/-- Sandbox execution of the wrapper generated for the list-form scenario. -/
def scenarioExec : PyExec :=
  runWrapper Option.none ["add"] addFn
    (extractFunctionName scenarioProblem.startingCodePython) scenarioTests

/-- The Piston response of the list-form scenario (stderr empty, so the
combined output equals stdout). -/
def scenarioResp : PistonResponse := ⟨⟨0, scenarioExec.stdout, "", scenarioExec.stdout⟩⟩

/-- The grading result of the list-form scenario. -/
def scenarioResult : Json := processPistonResponse scenarioResp scenarioProblem

/-- The harness test list of the mapping-form scenario problem. -/
def scenarioTestsMap : List PyTest := scenarioProblemMap.testCases.filterMap pyTestOfJson

/-- Sandbox execution of the wrapper generated for the mapping-form
scenario. -/
def scenarioExecMap : PyExec :=
  runWrapper Option.none ["add"] addFn
    (extractFunctionName scenarioProblemMap.startingCodePython) scenarioTestsMap

/-- The Piston response of the mapping-form scenario. -/
def scenarioRespMap : PistonResponse := ⟨⟨0, scenarioExecMap.stdout, "", scenarioExecMap.stdout⟩⟩

/-- The grading result of the mapping-form scenario. -/
def scenarioResultMap : Json := processPistonResponse scenarioRespMap scenarioProblemMap

/-- An adversarial submission whose raw text closes the triple-quoted exec
delimiter of the generated wrapper early. -/
def evilUserCode : String := "\"\"\")\nprint(\"pwned\")\nexec(\"\"\""

/-- A transcript whose stdout is the JSON number 5: exit code zero, and the
stdout parses as JSON but is not a report record. -/
def respNum5 : PistonResponse := ⟨⟨0, "5", "", "5"⟩⟩

/-- A transcript with exit code zero whose stdout parses as a completed
record but carries a forged summary inconsistent with its empty results
array. -/
def forgedStdout : String :=
  "\x7b\"status\": \"completed\", \"results\": [], \"summary\": \x7b\"total\": 2, \"passed\": 0, \"failed\": 0\x7d\x7d"

/-- The parsed form of the forged stdout. -/
def forgedJson : Json :=
  .obj [("status", .str "completed"), ("results", .arr []),
        ("summary", .obj [("total", .num 2), ("passed", .num 0), ("failed", .num 0)])]

/-- The Piston response carrying the forged stdout. -/
def respForged : PistonResponse := ⟨⟨0, forgedStdout, "", forgedStdout⟩⟩

/-- One well-formed passing outcome entry as emitted by the harness. -/
def goodEntryJson : Json :=
  .obj [("testCase", .num 1), ("description", .str "Test case 1"),
        ("input", .num 5), ("expected", .num 5), ("actual", .num 5),
        ("passed", .bool true)]

/-- The field list of a well-formed completed report with one passing
outcome and a stale embedded allIssuesFixed value of false. -/
def goodReportFields : List (String × Json) :=
  [("status", .str "completed"),
   ("results", .arr [goodEntryJson]),
   ("summary", .obj [("total", .num 1), ("passed", .num 1), ("failed", .num 0)]),
   ("allIssuesFixed", .bool false)]

/-- The well-formed completed report. -/
def goodReportJson : Json := .obj goodReportFields

/-- The serialized form of the well-formed completed report. -/
def goodStdout : String := pyDumps goodReportJson

/-- The Piston response carrying the well-formed completed report. -/
def respGood : PistonResponse := ⟨⟨0, goodStdout, "", goodStdout⟩⟩

/-- A problem declaring one known issue, used to exercise the issue
inference path of the interpreter. -/
def problemOneIssue : Problem :=
  { startingCodePython := "def add(a, b):\n    pass"
    testCases := [.obj [("input", .num 5), ("expected", .num 5)]]
    issues := some [⟨1, "Numbers must be in ascending order"⟩] }

/-- The timeout transcript of the specification scenario: exit code 1 and
stderr "timeout". -/
def respTimeout : PistonResponse := ⟨⟨1, "partial output", "timeout", "partial outputtimeout"⟩⟩

/-- A stored problem file with a solution field, used by the endpoint
claims. -/
def storedProblem : Json :=
  .obj [("id", .num 1), ("datePublished", .str "2024-01-01"),
        ("startingCode", .obj [("python", .str "def add(a, b):")]),
        ("testCases", .arr [.obj [("input", .num 1), ("expected", .num 1)]]),
        ("issues", .arr []), ("solution", .str "def add(a, b): return a + b")]

lemma jsDot_of_jget (r : Json) (k : String) (v : Json) (h : jget r k = some v) :
    jsDot r k = .ok (some v) := by
  cases r with
  | null => simp [jget] at h
  | bool b => simp [jget] at h
  | num n => simp [jget] at h
  | str s => simp [jget] at h
  | arr l => simp [jget] at h
  | obj kvs => simpa [jsDot, jget] using h

lemma everyPassed_all_true (rs : List Json)
    (h : ∀ r ∈ rs, jget r "passed" = some (.bool true)) :
    everyPassed rs = .ok true := by
  induction rs with
  | nil => rfl
  | cons r rest ih =>
    have hr := h r (List.mem_cons_self r rest)
    simp only [everyPassed, jsDot_of_jget r _ _ hr, truthy]
    exact ih fun x hx => h x (List.mem_cons_of_mem r hx)

lemma iget_iset_self (m : List (Int × Bool)) (k : Int) (v : Bool) :
    iget (iset m k v) k = some v := by
  induction m with
  | nil => simp [iset, iget]
  | cons p rest ih =>
    obtain ⟨k0, v0⟩ := p
    by_cases h : k0 = k
    · subst h; simp [iset, iget]
    · simp [iset, iget, h, ih]

lemma iget_iset_ne (m : List (Int × Bool)) (k k2 : Int) (v : Bool) (hk : k2 ≠ k) :
    iget (iset m k v) k2 = iget m k2 := by
  have hk2 : ¬ k = k2 := fun h => hk h.symm
  induction m with
  | nil => simp [iset, iget, hk2]
  | cons p rest ih =>
    obtain ⟨k0, v0⟩ := p
    by_cases h : k0 = k
    · subst h
      simp [iset, iget, hk2]
    · simp [iset, iget, h, ih]

lemma allFixedMap_cons (i : Issue) (rest : List Issue) (m : List (Int × Bool)) :
    allFixedMap (i :: rest) m = allFixedMap rest (iset m i.id true) := rfl

lemma allFixedMap_preserves_true (issues : List Issue) (m : List (Int × Bool)) (k : Int)
    (h : iget m k = some true) : iget (allFixedMap issues m) k = some true := by
  induction issues generalizing m with
  | nil => simpa [allFixedMap] using h
  | cons i rest ih =>
    rw [allFixedMap_cons]
    apply ih
    by_cases hk : i.id = k
    · subst hk; exact iget_iset_self m i.id true
    · rw [iget_iset_ne m i.id k true fun h2 => hk h2.symm]
      exact h

lemma allFixedMap_mem (issues : List Issue) (m : List (Int × Bool)) (i : Issue)
    (h : i ∈ issues) : iget (allFixedMap issues m) i.id = some true := by
  induction issues generalizing m with
  | nil => cases h
  | cons j rest ih =>
    rw [allFixedMap_cons]
    rcases List.mem_cons.mp h with h1 | h2
    · subst h1
      exact allFixedMap_preserves_true rest _ i.id (iget_iset_self m i.id true)
    · exact ih (iset m j.id true) h2

lemma analyzeIssuesFixed_fast (rs : List Json) (issues : List Issue)
    (h : everyPassed rs = .ok true) :
    analyzeIssuesFixed (some (.arr rs)) issues =
      .ok (allFixedMap issues (initIssuesMap issues)) := by
  simp [analyzeIssuesFixed, Bind.bind, Except.bind, Pure.pure, Except.pure, h]

lemma everyPassed_ok (rs : List Json)
    (hshape : ∀ r ∈ rs, ∃ rkvs b, r = Json.obj rkvs ∧ jget0 rkvs "passed" = some (.bool b)) :
    ∃ bb, everyPassed rs = .ok bb := by
  induction rs with
  | nil => exact ⟨true, rfl⟩
  | cons r rest ih =>
    obtain ⟨rkvs, b, hr, hp⟩ := hshape r (List.mem_cons_self r rest)
    subst hr
    obtain ⟨bb, hbb⟩ := ih fun x hx => hshape x (List.mem_cons_of_mem _ hx)
    cases b with
    | false => exact ⟨false, by simp [everyPassed, jsDot, hp, truthy]⟩
    | true => exact ⟨bb, by simp [everyPassed, jsDot, hp, truthy, hbb]⟩

lemma except_exists_ok {α : Type} (e : Except Unit α) (h : isOkE e = true) :
    ∃ a, e = .ok a := by
  cases e with
  | ok a => exact ⟨a, rfl⟩
  | error b => simp [isOkE] at h

lemma keywordStep_ok (issues : List Issue) (m : List (Int × Bool))
    (rkvs : List (String × Json)) (b : Bool) (d : String)
    (hp : jget0 rkvs "passed" = some (.bool b))
    (hd : jget0 rkvs "description" = some (.str d)) :
    ∃ m2, keywordStep issues m (.obj rkvs) = .ok m2 := by
  apply except_exists_ok
  cases b with
  | false =>
    simp [keywordStep, jsDot, hp, truthy, Bind.bind, Except.bind,
      Pure.pure, Except.pure, isOkE]
  | true =>
    simp [keywordStep, jsDot, hp, hd, truthy, jsIncludes, Bind.bind,
      Except.bind, Pure.pure, Except.pure, isOkE]

lemma analyzeLoop_ok (issues : List Issue) (rs : List Json)
    (hshape : ∀ r ∈ rs, ∃ rkvs b d, r = Json.obj rkvs ∧
      jget0 rkvs "passed" = some (.bool b) ∧ jget0 rkvs "description" = some (.str d)) :
    ∀ m, ∃ m2, analyzeLoop issues rs m = .ok m2 := by
  induction rs with
  | nil => exact fun m => ⟨m, rfl⟩
  | cons r rest ih =>
    intro m
    obtain ⟨rkvs, b, d, hr, hp, hd⟩ := hshape r (List.mem_cons_self r rest)
    subst hr
    obtain ⟨m1, hm1⟩ := keywordStep_ok issues m rkvs b d hp hd
    obtain ⟨m2, hm2⟩ := ih (fun x hx => hshape x (List.mem_cons_of_mem _ hx)) m1
    exact ⟨m2, by simp [analyzeLoop, Bind.bind, Except.bind, hm1, hm2]⟩

lemma analyzeIssuesFixed_ok (rs : List Json) (issues : List Issue)
    (hshape : ∀ r ∈ rs, ∃ rkvs b d, r = Json.obj rkvs ∧
      jget0 rkvs "passed" = some (.bool b) ∧ jget0 rkvs "description" = some (.str d)) :
    ∃ m, analyzeIssuesFixed (some (.arr rs)) issues = .ok m := by
  obtain ⟨bb, hbb⟩ := everyPassed_ok rs (by
    intro r hr
    obtain ⟨rkvs, b, d, h1, h2, h3⟩ := hshape r hr
    exact ⟨rkvs, b, h1, h2⟩)
  cases bb with
  | true => exact ⟨_, analyzeIssuesFixed_fast rs issues hbb⟩
  | false =>
    obtain ⟨m2, hm2⟩ := analyzeLoop_ok issues rs hshape (initIssuesMap issues)
    exact ⟨m2, by simp [analyzeIssuesFixed, Bind.bind, Except.bind, hbb, hm2]⟩

lemma jget0_objSet_self (kvs : List (String × Json)) (k : String) (v : Json) :
    jget0 (objSet kvs k v) k = some v := by
  induction kvs with
  | nil => simp [objSet, jget0]
  | cons p rest ih =>
    obtain ⟨k0, v0⟩ := p
    by_cases h : k0 = k
    · subst h; simp [objSet, jget0]
    · simp [objSet, jget0, h, ih]

lemma jget0_objSet_ne (kvs : List (String × Json)) (k k2 : String) (v : Json)
    (hk : k2 ≠ k) : jget0 (objSet kvs k v) k2 = jget0 kvs k2 := by
  have hk2 : ¬ k = k2 := fun h => hk h.symm
  induction kvs with
  | nil => simp [objSet, jget0, hk2]
  | cons p rest ih =>
    obtain ⟨k0, v0⟩ := p
    by_cases h : k0 = k
    · subst h; simp [objSet, jget0, hk2]
    · simp [objSet, jget0, h, ih]

lemma jget0_filter_solution_none (kvs : List (String × Json)) :
    jget0 (kvs.filter fun q => !(q.1 == "solution")) "solution" = Option.none := by
  induction kvs with
  | nil => simp [jget0]
  | cons p rest ih =>
    obtain ⟨k0, v0⟩ := p
    by_cases h : k0 = "solution"
    · subst h; simpa [List.filter_cons] using ih
    · simp [List.filter_cons, h, jget0, ih]

lemma jget0_filter_solution_other (kvs : List (String × Json)) (k : String)
    (hk : k ≠ "solution") :
    jget0 (kvs.filter fun q => !(q.1 == "solution")) k = jget0 kvs k := by
  induction kvs with
  | nil => simp
  | cons p rest ih =>
    obtain ⟨k0, v0⟩ := p
    by_cases h : k0 = "solution"
    · subst h
      have h2 : ¬ "solution" = k := fun h3 => hk h3.symm
      simp [List.filter_cons, jget0, h2, ih]
    · simp [List.filter_cons, h, jget0, ih]

lemma tryBranch_completed (resp : PistonResponse) (problem : Problem)
    (kvs skvs : List (String × Json)) (rs : List Json) (f : Int)
    (hparse : jsonParse resp.run.stdout = some (.obj kvs))
    (hstatus : jget0 kvs "status" = some (.str "completed"))
    (hsummary : jget0 kvs "summary" = some (.obj skvs))
    (hf : jget0 skvs "failed" = some (.num f))
    (hres : jget0 kvs "results" = some (.arr rs))
    (hshape : ∀ r ∈ rs, ∃ rkvs b d, r = Json.obj rkvs ∧
      jget0 rkvs "passed" = some (.bool b) ∧ jget0 rkvs "description" = some (.str d)) :
    ∃ ifj, tryBranch resp problem =
      .ok (.obj (objSet (objSet kvs "issuesFixed" ifj) "allIssuesFixed"
        (.bool (f == 0)))) := by
  cases hpi : problem.issues with
  | none =>
    refine ⟨Json.obj [], ?_⟩
    simp [tryBranch, hparse, jsDot, hstatus, hsummary, hf, hres, jsDotU, isStrVal,
      isNumVal, hpi, jsSet, Bind.bind, Except.bind, Pure.pure, Except.pure]
  | some issues =>
    obtain ⟨m, hm⟩ := analyzeIssuesFixed_ok rs issues hshape
    refine ⟨imapToJson m, ?_⟩
    simp [tryBranch, hparse, jsDot, hstatus, hsummary, hf, hres, jsDotU, isStrVal,
      isNumVal, hpi, hm, jsSet, Bind.bind, Except.bind, Pure.pure, Except.pure]

/-- Claim C2: for every sandbox transcript whose exit code is non-zero, the
interpreter returns status error with message Execution error, diagnostic
details taken from stderr when non-empty and otherwise from stdout, and no
outcomes populated, regardless of stdout content.  The code reads the
combined output field in the empty-stderr case; the hypothesis hwire
records the Piston wire fact that with an empty stderr the combined output
stream is exactly stdout. -/
theorem execution_error_result (resp : PistonResponse) (problem : Problem)
    (hcode : resp.run.code ≠ 0)
    (hwire : resp.run.stderr = "" → resp.run.output = resp.run.stdout) :
    processPistonResponse resp problem =
      .obj [("status", .str "error"), ("message", .str "Execution error"),
            ("details", .str (if resp.run.stderr = "" then resp.run.stdout
                              else resp.run.stderr))] ∧
    jget (processPistonResponse resp problem) "results" = Option.none ∧
    jget (processPistonResponse resp problem) "outcomes" = Option.none := by
  have hc : (resp.run.code == 0) = false := by
    simp only [beq_eq_false_iff_ne]
    exact hcode
  have h1 : processPistonResponse resp problem =
      .obj [("status", .str "error"), ("message", .str "Execution error"),
            ("details", .str (if resp.run.stderr = "" then resp.run.stdout
                              else resp.run.stderr))] := by
    by_cases hs : resp.run.stderr = ""
    · simp [processPistonResponse, hc, hs, hwire hs]
    · simp [processPistonResponse, hc, hs]
  refine ⟨h1, ?_, ?_⟩ <;> simp [h1, jget, jget0]

/-- Witness for execution_error_result at the timeout transcript of the
specification scenario (exit code 1, stderr timeout). -/
theorem execution_error_result_witness :
    respTimeout.run.code ≠ 0 ∧
    processPistonResponse respTimeout scenarioProblem =
      .obj [("status", .str "error"), ("message", .str "Execution error"),
            ("details", .str "timeout")] := by
  have h := (execution_error_result respTimeout scenarioProblem (by decide)
    (fun hs => absurd hs (by decide))).1
  refine ⟨by decide, ?_⟩
  simpa using h

/-- Claim C3 (amended): for every transcript with exit code zero whose
stdout does not parse as JSON (for example the empty string or truncated
JSON), the interpreter returns status error, message Failed to parse test
results, the raw stdout as details, and never raises: the catch renders
the parse exception as this first-class result.  A stdout that parses as
JSON without being a report record can instead be adopted and returned
as-is. -/
theorem parse_failure_error_result (resp : PistonResponse) (problem : Problem)
    (hcode : resp.run.code = 0)
    (hparse : jsonParse resp.run.stdout = Option.none) :
    processPistonResponse resp problem =
      .obj [("status", .str "error"),
            ("message", .str "Failed to parse test results"),
            ("details", .str resp.run.stdout)] := by
  simp [processPistonResponse, hcode, tryBranch, hparse, Bind.bind, Except.bind]

/-- Witness for parse_failure_error_result at the empty stdout and at a
truncated JSON stdout. -/
theorem parse_failure_error_result_witness :
    jsonParse "" = Option.none ∧
    processPistonResponse ⟨⟨0, "", "", ""⟩⟩ scenarioProblem =
      .obj [("status", .str "error"),
            ("message", .str "Failed to parse test results"),
            ("details", .str "")] ∧
    jsonParse "\x7b\"status\": \"comp" = Option.none ∧
    processPistonResponse ⟨⟨0, "\x7b\"status\": \"comp", "", ""⟩⟩ scenarioProblem =
      .obj [("status", .str "error"),
            ("message", .str "Failed to parse test results"),
            ("details", .str "\x7b\"status\": \"comp")] :=
  ⟨rfl, parse_failure_error_result _ _ rfl rfl, rfl,
   parse_failure_error_result _ _ rfl rfl⟩

/-- Claim C3 counterexample: with exit code zero and the stdout text 5, the
stdout parses as JSON but is not one structured report record, yet the
interpreter does not return the parse-failure error: it adopts and returns
the parsed number, which carries no status and no message field. -/
theorem nonrecord_stdout_counterexample :
    jsonParse "5" = some (.num 5) ∧
    specIsReportRecord (.num 5) = false ∧
    processPistonResponse respNum5 scenarioProblem = .num 5 ∧
    jget (processPistonResponse respNum5 scenarioProblem) "status" = Option.none ∧
    jget (processPistonResponse respNum5 scenarioProblem) "message" = Option.none :=
  ⟨rfl, rfl, rfl, rfl, rfl⟩

/-- Claim C5: the generated harness binds arguments per the declared rule:
a mapping input passes its values positionally in declaration order, and
any non-mapping input is passed as the sole positional argument. -/
theorem argument_binding_rule (f : PyFun) (kvs : List (String × PyVal)) (v : PyVal) :
    callWithInput f (.dict kvs) = f (kvs.map Prod.snd) ∧
    ((∀ l, v ≠ PyVal.dict l) → callWithInput f v = f [v]) := by
  refine ⟨rfl, fun h => ?_⟩
  cases v with
  | dict l => exact absurd rfl (h l)
  | none => rfl
  | bool b => rfl
  | int n => rfl
  | str s => rfl
  | list l => rfl

/-- Witness for argument_binding_rule: a function recording its argument
list receives 2 and 3 positionally from the mapping input, and receives
the scalar 5 as its only argument. -/
theorem argument_binding_rule_witness :
    callWithInput (fun args => .ok (.list args)) (.dict [("a", .int 2), ("b", .int 3)]) =
      .ok (.list [.int 2, .int 3]) ∧
    callWithInput (fun args => .ok (.list args)) (.int 5) = .ok (.list [.int 5]) :=
  ⟨(argument_binding_rule (fun args => .ok (.list args))
      [("a", .int 2), ("b", .int 3)] (.int 5)).1,
   (argument_binding_rule (fun args => .ok (.list args)) [] (.int 5)).2
     (fun _ h => PyVal.noConfusion h)⟩

/-- Claim C7: when every outcome has passed true and the issues list is
non-empty, issue inference takes the fast path: it returns the map marking
every declared issue fixed, and looking up any declared issue id yields
true. -/
theorem all_passed_marks_all_issues_fixed (rs : List Json) (issues : List Issue)
    (hpass : ∀ r ∈ rs, jget r "passed" = some (.bool true))
    (_hne : issues ≠ []) :
    analyzeIssuesFixed (some (.arr rs)) issues =
      .ok (allFixedMap issues (initIssuesMap issues)) ∧
    ∀ i ∈ issues, iget (allFixedMap issues (initIssuesMap issues)) i.id = some true :=
  ⟨analyzeIssuesFixed_fast rs issues (everyPassed_all_true rs hpass),
   fun i hi => allFixedMap_mem issues (initIssuesMap issues) i hi⟩

/-- Witness for all_passed_marks_all_issues_fixed at one passing outcome
and two declared issues. -/
theorem all_passed_marks_all_issues_fixed_witness :
    (∀ r ∈ [Json.obj [("passed", Json.bool true)]],
      jget r "passed" = some (.bool true)) ∧
    analyzeIssuesFixed (some (.arr [Json.obj [("passed", Json.bool true)]]))
      [⟨1, "ascending order issue"⟩, ⟨2, "Duplicate numbers issue"⟩] =
      .ok [(1, true), (2, true)] ∧
    iget [(1, true), (2, true)] 1 = some true := by
  have hpass : ∀ r ∈ [Json.obj [("passed", Json.bool true)]],
      jget r "passed" = some (.bool true) := by
    intro r hr
    rw [List.mem_singleton] at hr
    subst hr
    rfl
  have h := all_passed_marks_all_issues_fixed [Json.obj [("passed", Json.bool true)]]
    [⟨1, "ascending order issue"⟩, ⟨2, "Duplicate numbers issue"⟩] hpass (by simp)
  exact ⟨hpass, h.1, h.2 ⟨1, "ascending order issue"⟩ (by simp)⟩

/-- Claim C9: with an empty outcomes list the all-passed check is vacuously
true, so issue inference takes the fast path and marks every declared
issue fixed. -/
theorem empty_results_marks_all_issues_fixed (issues : List Issue)
    (_hne : issues ≠ []) :
    analyzeIssuesFixed (some (.arr [])) issues =
      .ok (allFixedMap issues (initIssuesMap issues)) ∧
    ∀ i ∈ issues, iget (allFixedMap issues (initIssuesMap issues)) i.id = some true :=
  ⟨analyzeIssuesFixed_fast [] issues rfl,
   fun i hi => allFixedMap_mem issues (initIssuesMap issues) i hi⟩

/-- Witness for empty_results_marks_all_issues_fixed at one declared
issue. -/
theorem empty_results_marks_all_issues_fixed_witness :
    ([⟨3, "Negative numbers issue"⟩] : List Issue) ≠ [] ∧
    analyzeIssuesFixed (some (.arr [])) [⟨3, "Negative numbers issue"⟩] =
      .ok [(3, true)] ∧
    iget [(3, true)] 3 = some true := by
  have h := empty_results_marks_all_issues_fixed [⟨3, "Negative numbers issue"⟩] (by simp)
  exact ⟨by simp, h.1, h.2 ⟨3, "Negative numbers issue"⟩ (by simp)⟩

/-- Claim C8: whenever the problem endpoint serves a problem, the response
body is the problem with the solution field stripped: the body has no
solution field and agrees with the stored problem on every other field, so
the solution value is never exposed externally. -/
theorem problem_endpoint_strips_solution (l : Option Json) (now : Int)
    (st st2 : ServerState) (p : Json)
    (hserve : getDailyProblem l now st = (some p, st2)) :
    handleGetProblem l now st = (.ok (removeSolution p), st2) ∧
    jget (removeSolution p) "solution" = Option.none ∧
    ∀ k, k ≠ "solution" → jget (removeSolution p) k = jget p k := by
  refine ⟨by simp [handleGetProblem, hserve], ?_, ?_⟩
  · cases p with
    | obj kvs => simpa [removeSolution, jget] using jget0_filter_solution_none kvs
    | null => rfl
    | bool b => rfl
    | num n => rfl
    | str s => rfl
    | arr a => rfl
  · intro k hk
    cases p with
    | obj kvs => simpa [removeSolution, jget] using jget0_filter_solution_other kvs k hk
    | null => rfl
    | bool b => rfl
    | num n => rfl
    | str s => rfl
    | arr a => rfl

/-- Witness for problem_endpoint_strips_solution at a stored problem with a
solution field and a fresh cache. -/
theorem problem_endpoint_strips_solution_witness :
    getDailyProblem Option.none 100 ⟨some storedProblem, some 0⟩ =
      (some storedProblem, ⟨some storedProblem, some 0⟩) ∧
    handleGetProblem Option.none 100 ⟨some storedProblem, some 0⟩ =
      (.ok (removeSolution storedProblem), ⟨some storedProblem, some 0⟩) ∧
    jget (removeSolution storedProblem) "solution" = Option.none ∧
    jget (removeSolution storedProblem) "id" = jget storedProblem "id" := by
  have h := problem_endpoint_strips_solution Option.none 100
    ⟨some storedProblem, some 0⟩ ⟨some storedProblem, some 0⟩ storedProblem rfl
  exact ⟨rfl, h.1, h.2.1, h.2.2 "id" (by decide)⟩

lemma handleGetProblem_fresh (l : Option Json) (now t : Int) (p : Json)
    (h : now - t < 3600000) :
    handleGetProblem l now ⟨some p, some t⟩ =
      (.ok (removeSolution p), ⟨some p, some t⟩) := by
  simp [handleGetProblem, getDailyProblem, h]

/-- Claim C10: serving the problem endpoint does not mutate the cached
problem.  With a fresh cache, any number of requests leaves the cache
state, and hence the cached problem with its solution, starting code and
test cases, unchanged, while each response is built from a fresh sanitized
copy. -/
theorem get_problem_preserves_cache (reqs : List (Option Json × Int)) (p : Json)
    (t : Int) (hfresh : ∀ r ∈ reqs, r.2 - t < 3600000) :
    serveAll reqs ⟨some p, some t⟩ = ⟨some p, some t⟩ ∧
    ∀ l now, now - t < 3600000 →
      handleGetProblem l now ⟨some p, some t⟩ =
        (.ok (removeSolution p), ⟨some p, some t⟩) := by
  refine ⟨?_, fun l now h => handleGetProblem_fresh l now t p h⟩
  induction reqs with
  | nil => rfl
  | cons r rest ih =>
    have h := hfresh r (List.mem_cons_self r rest)
    have hrest : ∀ x ∈ rest, x.2 - t < 3600000 :=
      fun x hx => hfresh x (List.mem_cons_of_mem r hx)
    show serveAll rest (handleGetProblem r.1 r.2 ⟨some p, some t⟩).2 =
      (⟨some p, some t⟩ : ServerState)
    rw [handleGetProblem_fresh r.1 r.2 t p h]
    exact ih hrest

/-- Witness for get_problem_preserves_cache: two requests against a fresh
cache leave the cached problem, solution included, untouched. -/
theorem get_problem_preserves_cache_witness :
    serveAll [(Option.none, 10), (Option.none, 20)] ⟨some storedProblem, some 0⟩ =
      ⟨some storedProblem, some 0⟩ ∧
    handleGetProblem Option.none 10 ⟨some storedProblem, some 0⟩ =
      (.ok (removeSolution storedProblem), ⟨some storedProblem, some 0⟩) ∧
    jget storedProblem "solution" =
      some (.str "def add(a, b): return a + b") := by
  have h := get_problem_preserves_cache [(Option.none, 10), (Option.none, 20)]
    storedProblem 0 (by intro r hr; fin_cases hr <;> decide)
  exact ⟨h.1, h.2 Option.none 10 (by decide), rfl⟩

/-- Claim C6 counterexample: in the end-to-end scenario with the
positional-list input, the generated harness passes the list [2, 3] as one
argument, add raises a TypeError, and grading the correct submission
yields one failed test with allIssuesFixed false, contradicting the
claimed passing summary. -/
theorem list_input_scenario_counterexample :
    extractFunctionName scenarioProblem.startingCodePython = "add" ∧
    scenarioExec.exitCode = 0 ∧
    jget scenarioResult "status" = some (.str "completed") ∧
    jget scenarioResult "summary" =
      some (.obj [("total", .num 1), ("passed", .num 0), ("failed", .num 1)]) ∧
    jget scenarioResult "allIssuesFixed" = some (.bool false) :=
  ⟨rfl, rfl, rfl, rfl, rfl⟩

/-- Claim C6 (amended): a list-valued input is passed to the entry point as
the sole positional argument rather than unpacked, so the list-form
scenario grades as one failed test with allIssuesFixed false; with the
mapping input the same submission is invoked as add(2, 3) and grades as
one passed test with allIssuesFixed true. -/
theorem list_input_passed_as_single_argument :
    callWithInput addFn (.list [.int 2, .int 3]) = addFn [.list [.int 2, .int 3]] ∧
    jget scenarioResult "summary" =
      some (.obj [("total", .num 1), ("passed", .num 0), ("failed", .num 1)]) ∧
    jget scenarioResultMap "status" = some (.str "completed") ∧
    jget scenarioResultMap "summary" =
      some (.obj [("total", .num 1), ("passed", .num 1), ("failed", .num 0)]) ∧
    jget scenarioResultMap "allIssuesFixed" = some (.bool true) :=
  ⟨rfl, rfl, rfl, rfl, rfl⟩

/-- Claim C4: the generator embeds the user payload raw inside a
triple-quoted exec block (a benign payload appears verbatim as the
embedded literal), and the delimiter can be closed prematurely by
adversarial input: for the adversarial payload the embedded literal ends
after a single newline, so the remainder of the payload sits outside the
exec evaluation boundary of the generated script. -/
theorem raw_embedding_premature_close :
    execEmbeddedContent (createPythonTestWrapper "x = 1" scenarioProblem) =
      some ("\n" ++ "x = 1" ++ "\n") ∧
    execEmbeddedContent (createPythonTestWrapper evilUserCode scenarioProblem) =
      some "\n" ∧
    some "\n" ≠ some ("\n" ++ evilUserCode ++ "\n") :=
  ⟨rfl, rfl, by decide⟩

/-- Claim C1 counterexample: a transcript with exit code zero whose stdout
parses as a completed record carrying a summary inconsistent with its
empty results array; the interpreter adopts the summary as-is, so the
returned result reports total 2 with zero outcomes and the summary
invariant fails on it. -/
theorem forged_summary_counterexample :
    jsonParse forgedStdout = some forgedJson ∧
    jget forgedJson "status" = some (.str "completed") ∧
    jget (processPistonResponse respForged scenarioProblem) "summary" =
      some (.obj [("total", .num 2), ("passed", .num 0), ("failed", .num 0)]) ∧
    jget (processPistonResponse respForged scenarioProblem) "results" =
      some (.arr []) ∧
    specSummaryInvariant (processPistonResponse respForged scenarioProblem) = false :=
  ⟨rfl, rfl, rfl, rfl, rfl⟩

/-- Claim C1 (amended): for every transcript with exit code zero whose
stdout parses as a completed record carrying a numeric summary, a results
array of well-formed outcome objects, and a summary consistent with the
outcomes (total equals the number of results and passed plus failed equals
total, as holds for every harness-produced report), the returned grading
result keeps the status, summary and results, and satisfies the summary
invariant; allIssuesFixed is recomputed as summary.failed equals zero,
independently of any embedded allIssuesFixed value.  Without the
consistency hypotheses the invariant can fail, since the embedded summary
is adopted as-is. -/
theorem completed_report_summary_invariant (resp : PistonResponse)
    (problem : Problem) (kvs skvs : List (String × Json)) (rs : List Json)
    (t p0 f : Int)
    (hcode : resp.run.code = 0)
    (hparse : jsonParse resp.run.stdout = some (.obj kvs))
    (hstatus : jget0 kvs "status" = some (.str "completed"))
    (hsummary : jget0 kvs "summary" = some (.obj skvs))
    (ht : jget0 skvs "total" = some (.num t))
    (hp : jget0 skvs "passed" = some (.num p0))
    (hf : jget0 skvs "failed" = some (.num f))
    (hres : jget0 kvs "results" = some (.arr rs))
    (hshape : ∀ r ∈ rs, ∃ rkvs b d, r = Json.obj rkvs ∧
      jget0 rkvs "passed" = some (.bool b) ∧
      jget0 rkvs "description" = some (.str d))
    (htotal : t = Int.ofNat rs.length) (hsum : p0 + f = t) :
    jget (processPistonResponse resp problem) "status" = some (.str "completed") ∧
    jget (processPistonResponse resp problem) "summary" = some (.obj skvs) ∧
    jget (processPistonResponse resp problem) "results" = some (.arr rs) ∧
    jget (processPistonResponse resp problem) "allIssuesFixed" =
      some (.bool (f == 0)) ∧
    specSummaryInvariant (processPistonResponse resp problem) = true := by
  obtain ⟨ifj, hok⟩ := tryBranch_completed resp problem kvs skvs rs f hparse
    hstatus hsummary hf hres hshape
  have hresult : processPistonResponse resp problem =
      .obj (objSet (objSet kvs "issuesFixed" ifj) "allIssuesFixed"
        (.bool (f == 0))) := by
    simp [processPistonResponse, hcode, hok]
  have hjstatus : jget (processPistonResponse resp problem) "status" =
      some (.str "completed") := by
    rw [hresult]
    show jget0 (objSet (objSet kvs "issuesFixed" ifj) "allIssuesFixed"
      (.bool (f == 0))) "status" = _
    rw [jget0_objSet_ne _ _ _ _ (by decide), jget0_objSet_ne _ _ _ _ (by decide),
      hstatus]
  have hjsummary : jget (processPistonResponse resp problem) "summary" =
      some (.obj skvs) := by
    rw [hresult]
    show jget0 (objSet (objSet kvs "issuesFixed" ifj) "allIssuesFixed"
      (.bool (f == 0))) "summary" = _
    rw [jget0_objSet_ne _ _ _ _ (by decide), jget0_objSet_ne _ _ _ _ (by decide),
      hsummary]
  have hjres : jget (processPistonResponse resp problem) "results" =
      some (.arr rs) := by
    rw [hresult]
    show jget0 (objSet (objSet kvs "issuesFixed" ifj) "allIssuesFixed"
      (.bool (f == 0))) "results" = _
    rw [jget0_objSet_ne _ _ _ _ (by decide), jget0_objSet_ne _ _ _ _ (by decide),
      hres]
  have hjaif : jget (processPistonResponse resp problem) "allIssuesFixed" =
      some (.bool (f == 0)) := by
    rw [hresult]
    show jget0 (objSet (objSet kvs "issuesFixed" ifj) "allIssuesFixed"
      (.bool (f == 0))) "allIssuesFixed" = _
    rw [jget0_objSet_self]
  refine ⟨hjstatus, hjsummary, hjres, hjaif, ?_⟩
  simp only [specSummaryInvariant, hjstatus, hjsummary, hjres, hjaif, ht, hp, hf]
  subst htotal
  simp [hsum]

/-- Witness for completed_report_summary_invariant at a harness-shaped
completed report whose embedded allIssuesFixed is the stale value false:
the returned result recomputes it to true and satisfies the invariant. -/
theorem completed_report_summary_invariant_witness :
    jsonParse goodStdout = some (.obj goodReportFields) ∧
    jget (processPistonResponse respGood problemOneIssue) "allIssuesFixed" =
      some (.bool true) ∧
    specSummaryInvariant (processPistonResponse respGood problemOneIssue) = true := by
  have hshape : ∀ r ∈ [goodEntryJson], ∃ rkvs b d, r = Json.obj rkvs ∧
      jget0 rkvs "passed" = some (.bool b) ∧
      jget0 rkvs "description" = some (.str d) := by
    intro r hr
    rw [List.mem_singleton] at hr
    subst hr
    exact ⟨_, true, "Test case 1", rfl, rfl, rfl⟩
  have h := completed_report_summary_invariant respGood problemOneIssue
    goodReportFields [("total", .num 1), ("passed", .num 1), ("failed", .num 0)]
    [goodEntryJson] 1 1 0 rfl rfl rfl rfl rfl rfl rfl rfl hshape rfl rfl
  exact ⟨rfl, h.2.2.2.1, h.2.2.2.2⟩
